import Mathlib

/-!
Verification development for an M/M/c queueing simulator (main.py).

The simulator is embedded shallowly over the rationals. Randomness is
modelled by an explicit stream of samples: each call to the library
function `random.expovariate(lambd)` computes `-log(1.0 - random()) / lambd`,
and the non-negative quantity `-log(1.0 - random())` is what the stream
supplies, so `expovariate` below divides a stream sample by the rate.
The unbounded `while time < simulation_time` loop is given explicit fuel;
exhausted fuel is reported as `none` and never identified with a result.
Python exceptions become an explicit error type: `min()` over an empty
list raises ValueError (the "empty server pool" failure), dividing by a
zero rate raises ZeroDivisionError, and the snapshot average over an
empty player dict also raises ZeroDivisionError.  The two ZeroDivision
sites are tagged with distinct constructors so that theorems can speak
about the raising site; both propagate identically.
-/

/-- Error outcomes of the simulator, mirroring the Python exceptions:
`emptyServerPool` is the ValueError raised by `min([])` in `enter_queue`;
`zeroDivision` is the ZeroDivisionError raised by `random.expovariate`
when the rate is zero; `snapshotZeroDivision` is the ZeroDivisionError
raised by the average-cost division in `Snapshot.__init__`. -/
inductive SimError where
  | emptyServerPool : SimError
  | zeroDivision : SimError
  | snapshotZeroDivision : SimError
deriving DecidableEq, Repr

/-- The fields a `Player` carries after `enter_queue` has assigned it
(`arrival_time` is set at construction, the rest during assignment). -/
structure Player where
  arrival_time : ℚ
  service_time : ℚ
  service_start_time : ℚ
  service_end_time : ℚ
  cost : ℚ
deriving DecidableEq, Repr

/-- The `Queue` class: a service rate, the next-available time of each
server, and the list of active players (`self.queue`). -/
structure Queue where
  service_rate : ℚ
  next_available_times : List ℚ
  queue : List Player
deriving DecidableEq, Repr

/-- Models `random.expovariate(lambd)`, whose body is
`-log(1.0 - random()) / lambd`: the sample `s` stands for the quantity
`-log(1.0 - random())` (non-negative, since `random()` lies in `[0,1)`);
a zero rate raises ZeroDivisionError, any other rate divides silently. -/
def expovariate (lambd : ℚ) (s : ℚ) : Except SimError ℚ :=
  if lambd = 0 then .error .zeroDivision else .ok (s / lambd)

/-- Models Python `min` on a list: `none` on the empty list stands for the
ValueError it raises there, otherwise the least element. -/
def pyMin : List ℚ → Option ℚ
  | [] => none
  | x :: xs => some (xs.foldl min x)

/-- Models Python `list.index(m)` for an element `m` that occurs in the
list: the index of its first occurrence (length if absent). -/
def pyIndex : List ℚ → ℚ → ℕ
  | [], _ => 0
  | x :: xs, m => if x = m then 0 else pyIndex xs m + 1

/-- Models Python dict assignment `d[k] = v`: replaces the value at the
first occurrence of `k`, keeping its position, else appends. -/
def dictInsert {κ α : Type} [DecidableEq κ] (k : κ) (v : α) :
    List (κ × α) → List (κ × α)
  | [] => [(k, v)]
  | (k', v') :: rest =>
      if k' = k then (k, v) :: rest else (k', v') :: dictInsert k v rest

/-- `Queue.__init__(service_rate, no_of_servers)`:
`next_available_times = [0 for server in range(no_of_servers)]` (empty for
a non-positive count, as `range` is) and an empty active list. -/
def Queue.init (service_rate : ℚ) (no_of_servers : ℤ) : Queue :=
  { service_rate := service_rate
    next_available_times := List.replicate no_of_servers.toNat 0
    queue := [] }

/-- `Queue.service_time`: `return random.expovariate(self.service_rate)`,
with `s` the stream sample feeding `expovariate`. -/
def Queue.service_time (q : Queue) (s : ℚ) : Except SimError ℚ :=
  expovariate q.service_rate s

/-- `Player.enter_queue(self, queue)`: take the minimum of
`next_available_times` (ValueError on an empty pool), its first index,
sample a service time, set the four service fields, overwrite the chosen
server slot with the service end time and append the player to the
active list.  Returns the assigned player together with the new queue. -/
def Player.enter_queue (arrival_time : ℚ) (queue : Queue) (s : ℚ) :
    Except SimError (Player × Queue) :=
  match pyMin queue.next_available_times with
  | none => .error .emptyServerPool
  | some next_available_time =>
      let next_available_server := pyIndex queue.next_available_times next_available_time
      match queue.service_time s with
      | .error e => .error e
      | .ok service_time =>
          let service_start_time := max arrival_time next_available_time
          let service_end_time := service_start_time + service_time
          let cost := service_end_time - arrival_time
          let p : Player :=
            { arrival_time := arrival_time
              service_time := service_time
              service_start_time := service_start_time
              service_end_time := service_end_time
              cost := cost }
          .ok (p,
            { queue with
                next_available_times :=
                  queue.next_available_times.set next_available_server service_end_time
                queue := queue.queue ++ [p] })

/-- `Queue.clean_up_queue(time)`: keep exactly the active players whose
`service_end_time` is strictly greater than `time`. -/
def Queue.clean_up_queue (q : Queue) (time : ℚ) : Queue :=
  { q with queue := q.queue.filter (fun p => decide (time < p.service_end_time)) }

/-- A recorded `Snapshot`: the active-queue length and the running
average cost. -/
structure Snapshot where
  queue_length : ℕ
  average_cost : ℚ
deriving DecidableEq, Repr

/-- `Snapshot.__init__(players, queue)`: average of `cost` over the whole
`players` dict divided by its length, raising ZeroDivisionError when the
dict is empty; `queue_length` is the length of the active list. -/
def Snapshot.make (players : List (ℕ × Player)) (queue : Queue) :
    Except SimError Snapshot :=
  if players.length = 0 then .error .snapshotZeroDivision
  else
    .ok { queue_length := queue.queue.length
          average_cost := (players.map (fun kv => kv.2.cost)).sum / players.length }

/-- `SimulationModel.__init__` state: the arrival rate and the queue. -/
structure SimulationModel where
  arrival_rate : ℚ
  queue : Queue
deriving DecidableEq, Repr

/-- `SimulationModel.__init__(arrival_rate, service_rate, no_of_servers)`. -/
def SimulationModel.init (arrival_rate service_rate : ℚ) (no_of_servers : ℤ) :
    SimulationModel :=
  { arrival_rate := arrival_rate, queue := Queue.init service_rate no_of_servers }

/-- The mutable state of `main_simulation_loop`: current time, the
`players` and `snapshots` dicts, the player counter, the queue, and the
index of the next unused stream sample. -/
structure LoopState where
  time : ℚ
  players : List (ℕ × Player)
  snapshots : List (ℚ × Snapshot)
  no_of_players : ℕ
  queue : Queue
  rng : ℕ
deriving DecidableEq, Repr

/-- One iteration of the `while` body of `main_simulation_loop`: create a
player at the current time, insert it under the incremented counter, let
it enter the queue, clean up the queue at the current time, advance time
by an inter-arrival sample, and (when enabled) record a snapshot keyed by
the new time.  Any exception propagates. -/
def stepBody (stream : ℕ → ℚ) (arrival_rate : ℚ) (snap_shot : Bool)
    (st : LoopState) : Except SimError LoopState :=
  match Player.enter_queue st.time st.queue (stream st.rng) with
  | .error e => .error e
  | .ok (new_player, q1) =>
      let players1 := dictInsert (st.no_of_players + 1) new_player st.players
      let q2 := q1.clean_up_queue st.time
      match expovariate arrival_rate (stream (st.rng + 1)) with
      | .error e => .error e
      | .ok gap =>
          let time1 := st.time + gap
          if snap_shot then
            match Snapshot.make players1 q2 with
            | .error e => .error e
            | .ok snap =>
                .ok { time := time1
                      players := players1
                      snapshots := dictInsert time1 snap st.snapshots
                      no_of_players := st.no_of_players + 1
                      queue := q2
                      rng := st.rng + 2 }
          else
            .ok { time := time1
                  players := players1
                  snapshots := st.snapshots
                  no_of_players := st.no_of_players + 1
                  queue := q2
                  rng := st.rng + 2 }

/-- The `while time < simulation_time` loop, with explicit fuel: `none`
means the fuel ran out before the loop condition failed. -/
def loopAux (stream : ℕ → ℚ) (arrival_rate simulation_time : ℚ)
    (snap_shot : Bool) :
    ℕ → LoopState →
      Except SimError (Option (List (ℕ × Player) × List (ℚ × Snapshot)))
  | 0, st =>
      if st.time < simulation_time then .ok none
      else .ok (some (st.players, st.snapshots))
  | fuel + 1, st =>
      if st.time < simulation_time then
        match stepBody stream arrival_rate snap_shot st with
        | .error e => .error e
        | .ok st' => loopAux stream arrival_rate simulation_time snap_shot fuel st'
      else .ok (some (st.players, st.snapshots))

/-- `SimulationModel.main_simulation_loop(simulation_time, snap_shot)`:
run the loop from time 0, empty dicts, counter 0, the model queue and the
start of the sample stream; return the `players` and `snapshots` dicts. -/
def SimulationModel.main_simulation_loop (m : SimulationModel)
    (simulation_time : ℚ) (snap_shot : Bool) (stream : ℕ → ℚ) (fuel : ℕ) :
    Except SimError (Option (List (ℕ × Player) × List (ℚ × Snapshot))) :=
  loopAux stream m.arrival_rate simulation_time snap_shot fuel
    { time := 0, players := [], snapshots := [], no_of_players := 0
      queue := m.queue, rng := 0 }

/-! ## Helper lemmas about the embedded primitives -/

theorem foldl_min_mem (xs : List ℚ) (x : ℚ) : xs.foldl min x ∈ x :: xs := by
  induction xs generalizing x with
  | nil => simp
  | cons y ys ih =>
      have h := ih (min x y)
      rcases List.mem_cons.mp h with h1 | h1
      · rcases min_choice x y with hc | hc
        · exact List.mem_cons.mpr (Or.inl (by rw [List.foldl_cons, h1, hc]))
        · refine List.mem_cons.mpr (Or.inr ?_)
          exact List.mem_cons.mpr (Or.inl (by rw [List.foldl_cons, h1, hc]))
      · refine List.mem_cons.mpr (Or.inr ?_)
        exact List.mem_cons.mpr (Or.inr (by rw [List.foldl_cons]; exact h1))

theorem foldl_min_le_init (xs : List ℚ) (x : ℚ) : xs.foldl min x ≤ x := by
  induction xs generalizing x with
  | nil => exact le_refl x
  | cons z zs ih =>
      calc zs.foldl min (min x z) ≤ min x z := ih (min x z)
        _ ≤ x := min_le_left _ _

theorem foldl_min_le_mem (xs : List ℚ) (x : ℚ) :
    ∀ y ∈ xs, xs.foldl min x ≤ y := by
  induction xs generalizing x with
  | nil => intro y hy; simp at hy
  | cons z zs ih =>
      intro y hy
      rcases List.mem_cons.mp hy with h1 | h1
      · calc zs.foldl min (min x z) ≤ min x z := foldl_min_le_init zs _
          _ ≤ z := min_le_right _ _
          _ = y := h1.symm
      · exact ih (min x z) y h1

theorem foldl_min_le (xs : List ℚ) (x : ℚ) :
    ∀ y ∈ x :: xs, xs.foldl min x ≤ y := by
  intro y hy
  rcases List.mem_cons.mp hy with h1 | h1
  · exact h1 ▸ foldl_min_le_init xs x
  · exact foldl_min_le_mem xs x y h1

theorem pyMin_mem {l : List ℚ} {m : ℚ} (h : pyMin l = some m) : m ∈ l := by
  cases l with
  | nil => simp [pyMin] at h
  | cons x xs =>
      simp only [pyMin, Option.some.injEq] at h
      subst h
      exact foldl_min_mem xs x

theorem pyMin_le {l : List ℚ} {m : ℚ} (h : pyMin l = some m) :
    ∀ x ∈ l, m ≤ x := by
  cases l with
  | nil => simp [pyMin] at h
  | cons x xs =>
      simp only [pyMin, Option.some.injEq] at h
      subst h
      exact foldl_min_le xs x

theorem pyMin_eq_none {l : List ℚ} : pyMin l = none ↔ l = [] := by
  cases l <;> simp [pyMin]

theorem pyIndex_lt_length {l : List ℚ} {m : ℚ} (h : m ∈ l) :
    pyIndex l m < l.length := by
  induction l with
  | nil => simp at h
  | cons x xs ih =>
      by_cases hx : x = m
      · simp [pyIndex, hx]
      · rcases List.mem_cons.mp h with h1 | h1
        · exact absurd h1.symm hx
        · simpa [pyIndex, hx, Nat.succ_lt_succ_iff] using ih h1

theorem pyIndex_getD {l : List ℚ} {m : ℚ} (h : m ∈ l) :
    l.getD (pyIndex l m) 0 = m := by
  induction l with
  | nil => simp at h
  | cons x xs ih =>
      by_cases hx : x = m
      · simp [pyIndex, hx]
      · rcases List.mem_cons.mp h with h1 | h1
        · exact absurd h1.symm hx
        · simpa [pyIndex, hx] using ih h1

theorem pyIndex_first {l : List ℚ} {m : ℚ} :
    ∀ i < pyIndex l m, l.getD i 0 ≠ m := by
  induction l with
  | nil => intro i hi; simp [pyIndex] at hi
  | cons x xs ih =>
      intro i hi
      by_cases hx : x = m
      · simp [pyIndex, hx] at hi
      · cases i with
        | zero => simpa using hx
        | succ j =>
            simp only [pyIndex, hx, if_false] at hi
            simpa using ih j (Nat.lt_of_succ_lt_succ hi)

theorem dictInsert_ne_nil {κ α : Type} [DecidableEq κ] (k : κ) (v : α)
    (l : List (κ × α)) : dictInsert k v l ≠ [] := by
  cases l with
  | nil => simp [dictInsert]
  | cons kv rest =>
      obtain ⟨k', v'⟩ := kv
      by_cases h : k' = k <;> simp [dictInsert, h]

theorem mem_dictInsert {κ α : Type} [DecidableEq κ] {k : κ} {v : α}
    {l : List (κ × α)} {kv : κ × α} (h : kv ∈ dictInsert k v l) :
    kv = (k, v) ∨ kv ∈ l := by
  induction l with
  | nil => simpa [dictInsert] using h
  | cons kv' rest ih =>
      obtain ⟨k', v'⟩ := kv'
      by_cases hk : k' = k
      · simp only [dictInsert, hk, if_true] at h
        rcases List.mem_cons.mp h with h1 | h1
        · exact Or.inl h1
        · exact Or.inr (List.mem_cons.mpr (Or.inr h1))
      · simp only [dictInsert, hk, if_false] at h
        rcases List.mem_cons.mp h with h1 | h1
        · exact Or.inr (List.mem_cons.mpr (Or.inl h1))
        · rcases ih h1 with h2 | h2
          · exact Or.inl h2
          · exact Or.inr (List.mem_cons.mpr (Or.inr h2))

theorem dictInsert_eq_append {κ α : Type} [DecidableEq κ] {k : κ} {v : α}
    {l : List (κ × α)} (h : ∀ kv ∈ l, kv.1 ≠ k) :
    dictInsert k v l = l ++ [(k, v)] := by
  induction l with
  | nil => simp [dictInsert]
  | cons kv' rest ih =>
      obtain ⟨k', v'⟩ := kv'
      have hk : k' ≠ k := h (k', v') (List.mem_cons_self _ _)
      simp only [dictInsert, hk, if_false, List.cons_append, List.cons.injEq,
        true_and]
      exact ih (fun kv hkv => h kv (List.mem_cons.mpr (Or.inr hkv)))

theorem getD_set_self {l : List ℚ} {j : ℕ} {v : ℚ} (h : j < l.length) :
    (l.set j v).getD j 0 = v := by
  rw [List.getD_eq_getElem?_getD, List.getElem?_set_self h]
  rfl

theorem getD_set_ne {l : List ℚ} {i j : ℕ} {v : ℚ} (h : j ≠ i) :
    (l.set j v).getD i 0 = l.getD i 0 := by
  rw [List.getD_eq_getElem?_getD, List.getElem?_set_ne h,
    ← List.getD_eq_getElem?_getD]

/-- Inversion of a successful `enter_queue`: the pool is nonempty with
minimum `m`, the rate is nonzero, and the player and new queue are the
records the code builds. -/
theorem enter_queue_ok {a s : ℚ} {q : Queue} {p : Player} {q' : Queue}
    (h : Player.enter_queue a q s = .ok (p, q')) :
    ∃ m, pyMin q.next_available_times = some m ∧ q.service_rate ≠ 0 ∧
      p = { arrival_time := a, service_time := s / q.service_rate
            service_start_time := max a m
            service_end_time := max a m + s / q.service_rate
            cost := max a m + s / q.service_rate - a } ∧
      q' = { q with
              next_available_times :=
                q.next_available_times.set
                  (pyIndex q.next_available_times m)
                  (max a m + s / q.service_rate)
              queue := q.queue ++ [p] } := by
  unfold Player.enter_queue at h
  cases hmin : pyMin q.next_available_times with
  | none => rw [hmin] at h; exact absurd h (by simp)
  | some m =>
      rw [hmin] at h
      unfold Queue.service_time expovariate at h
      by_cases hr : q.service_rate = 0
      · rw [if_pos hr] at h; exact absurd h (by simp)
      · rw [if_neg hr] at h
        simp only [Except.ok.injEq, Prod.mk.injEq] at h
        obtain ⟨hp, hq⟩ := h
        subst hp
        subst hq
        exact ⟨m, rfl, hr, rfl, rfl⟩

/-- The only errors `enter_queue` can raise are the empty-pool ValueError
and the zero-rate ZeroDivisionError. -/
theorem enter_queue_error {a s : ℚ} {q : Queue} {e : SimError}
    (h : Player.enter_queue a q s = .error e) :
    e = .emptyServerPool ∨ e = .zeroDivision := by
  unfold Player.enter_queue at h
  cases hmin : pyMin q.next_available_times with
  | none => rw [hmin] at h; simp at h; exact Or.inl h.symm
  | some m =>
      rw [hmin] at h
      unfold Queue.service_time expovariate at h
      by_cases hr : q.service_rate = 0
      · rw [if_pos hr] at h; simp at h; exact Or.inr h.symm
      · rw [if_neg hr] at h; exact absurd h (by simp)

/-! ## Invariants carried by the simulation loop -/

/-- The per-entity invariant of the spec: service starts no earlier than
arrival, cost is exactly the sojourn time, and it dominates the
non-negative service time. -/
def PlayerInv (p : Player) : Prop :=
  p.arrival_time ≤ p.service_start_time ∧
  p.cost = p.service_end_time - p.arrival_time ∧
  p.service_time ≤ p.cost ∧
  0 ≤ p.service_time

/-- Bookkeeping that ties every created entity to the server slot it was
assigned to: each pair records the entity and its server index; every
entity ends no later than the next-available time of its server, and two
entities on the same server occupy disjoint service windows (the earlier
one ends before the later one starts). -/
def PoolChain (assigned : List (Player × ℕ)) (slots : List ℚ) : Prop :=
  (∀ e ∈ assigned, e.2 < slots.length ∧
    e.1.service_end_time ≤ slots.getD e.2 0) ∧
  assigned.Pairwise (fun a b => a.2 = b.2 →
    a.1.service_end_time ≤ b.1.service_start_time)

/-- The loop invariant: the queue keeps its service rate and its number
of servers, player keys never exceed the counter, every created player
satisfies the per-entity invariant, and the created players can be
attributed to servers as a `PoolChain`. -/
def StateInv (sr : ℚ) (c : ℕ) (st : LoopState) : Prop :=
  st.queue.service_rate = sr ∧
  st.queue.next_available_times.length = c ∧
  (∀ kv ∈ st.players, kv.1 ≤ st.no_of_players) ∧
  (∀ kv ∈ st.players, PlayerInv kv.2) ∧
  ∃ assigned : List (Player × ℕ),
    assigned.map Prod.fst = st.players.map Prod.snd ∧
    PoolChain assigned st.queue.next_available_times

/-- Inversion of a successful loop-body step: the new state is built from
a successful assignment, a fresh-key insertion and a cleanup. -/
theorem stepBody_ok_parts {stream : ℕ → ℚ} {ar : ℚ} {snapb : Bool}
    {st st' : LoopState} (h : stepBody stream ar snapb st = .ok st') :
    ∃ p q1, Player.enter_queue st.time st.queue (stream st.rng) = .ok (p, q1) ∧
      st'.players = dictInsert (st.no_of_players + 1) p st.players ∧
      st'.queue = q1.clean_up_queue st.time ∧
      st'.no_of_players = st.no_of_players + 1 := by
  unfold stepBody at h
  cases henter : Player.enter_queue st.time st.queue (stream st.rng) with
  | error e => rw [henter] at h; exact absurd h (by simp)
  | ok pq =>
      obtain ⟨p, q1⟩ := pq
      rw [henter] at h
      refine ⟨p, q1, rfl, ?_⟩
      cases hexp : expovariate ar (stream (st.rng + 1)) with
      | error e => rw [hexp] at h; exact absurd h (by simp)
      | ok gap =>
          rw [hexp] at h
          cases snapb with
          | false =>
              simp only [Bool.false_eq_true, if_false, Except.ok.injEq] at h
              subst h
              exact ⟨rfl, rfl, rfl⟩
          | true =>
              simp only [if_true] at h
              cases hsnap : Snapshot.make
                  (dictInsert (st.no_of_players + 1) p st.players)
                  (q1.clean_up_queue st.time) with
              | error e => rw [hsnap] at h; exact absurd h (by simp)
              | ok snap =>
                  rw [hsnap] at h
                  simp only [Except.ok.injEq] at h
                  subst h
                  exact ⟨rfl, rfl, rfl⟩

/-- One successful loop-body step preserves the loop invariant, provided
the service rate is positive and the consumed sample is non-negative. -/
theorem stepBody_preserves {stream : ℕ → ℚ} {ar sr : ℚ} {snapb : Bool}
    {c : ℕ} {st st' : LoopState} (hsr : 0 < sr) (hs : 0 ≤ stream st.rng)
    (hinv : StateInv sr c st) (h : stepBody stream ar snapb st = .ok st') :
    StateInv sr c st' := by
  obtain ⟨p, q1, henter, hplayers, hqueue, hn⟩ := stepBody_ok_parts h
  obtain ⟨hsrq, hlen, hkeys, hpinv, assigned, hmap, hbound, hpair⟩ := hinv
  obtain ⟨m, hmin, hrate, hp, hq1⟩ := enter_queue_ok henter
  have hm_mem : m ∈ st.queue.next_available_times := pyMin_mem hmin
  have hstv : (0:ℚ) ≤ stream st.rng / st.queue.service_rate :=
    div_nonneg hs (le_of_lt (hsrq ▸ hsr))
  have hj : pyIndex st.queue.next_available_times m <
      st.queue.next_available_times.length := pyIndex_lt_length hm_mem
  have hjm : st.queue.next_available_times.getD
      (pyIndex st.queue.next_available_times m) 0 = m := pyIndex_getD hm_mem
  have hfresh : ∀ kv ∈ st.players, kv.1 ≠ st.no_of_players + 1 := by
    intro kv hkv
    exact Nat.ne_of_lt (Nat.lt_succ_of_le (hkeys kv hkv))
  have happend : dictInsert (st.no_of_players + 1) p st.players =
      st.players ++ [(st.no_of_players + 1, p)] := dictInsert_eq_append hfresh
  have hpinv_new : PlayerInv p := by
    rw [hp]
    refine ⟨le_max_left _ _, rfl, ?_, hstv⟩
    have := le_max_left st.time m
    simp only []
    linarith
  have hslots' : st'.queue.next_available_times =
      st.queue.next_available_times.set
        (pyIndex st.queue.next_available_times m)
        (max st.time m + stream st.rng / st.queue.service_rate) := by
    rw [hqueue, hq1]
    rfl
  have hend_ge_m : m ≤ max st.time m + stream st.rng / st.queue.service_rate := by
    have h1 := le_max_right st.time m
    linarith
  refine ⟨?_, ?_, ?_, ?_, ?_⟩
  · rw [hqueue, hq1]; exact hsrq
  · rw [hslots', List.length_set]; exact hlen
  · intro kv hkv
    rw [hplayers] at hkv
    rcases mem_dictInsert hkv with h1 | h1
    · rw [h1, hn]
    · rw [hn]; exact Nat.le_succ_of_le (hkeys kv h1)
  · intro kv hkv
    rw [hplayers] at hkv
    rcases mem_dictInsert hkv with h1 | h1
    · rw [h1]; exact hpinv_new
    · exact hpinv kv h1
  · refine ⟨assigned ++ [(p, pyIndex st.queue.next_available_times m)], ?_, ?_, ?_⟩
    · rw [hplayers, happend, List.map_append, List.map_append, hmap]
      rfl
    · intro e he
      rcases List.mem_append.mp he with h1 | h1
      · obtain ⟨he_lt, he_le⟩ := hbound e h1
        constructor
        · rw [hslots', List.length_set]; exact he_lt
        · by_cases hcase : e.2 = pyIndex st.queue.next_available_times m
          · rw [hslots', hcase, getD_set_self hj]
            calc e.1.service_end_time ≤
                st.queue.next_available_times.getD e.2 0 := he_le
              _ = m := by rw [hcase, hjm]
              _ ≤ _ := hend_ge_m
          · rw [hslots', getD_set_ne (fun hc => hcase hc.symm)]
            exact he_le
      · rcases List.mem_singleton.mp h1 with rfl
        constructor
        · rw [hslots', List.length_set]; exact hj
        · rw [hslots', getD_set_self hj, hp]
    · rw [List.pairwise_append]
      refine ⟨hpair, List.pairwise_singleton _ _, ?_⟩
      intro a ha b hb hab
      rcases List.mem_singleton.mp hb with rfl
      have ha_le : a.1.service_end_time ≤
          st.queue.next_available_times.getD a.2 0 := (hbound a ha).2
      rw [hp]
      calc a.1.service_end_time ≤
          st.queue.next_available_times.getD a.2 0 := ha_le
        _ = m := by rw [hab, hjm]
        _ ≤ max st.time m := le_max_right _ _

/-- The loop invariant survives any completed run of the loop. -/
theorem loopAux_preserves {stream : ℕ → ℚ} {ar sr horizon : ℚ} {snapb : Bool}
    {c : ℕ} (hsr : 0 < sr) (hs : ∀ n, 0 ≤ stream n) :
    ∀ (fuel : ℕ) (st : LoopState)
      (ps : List (ℕ × Player)) (sn : List (ℚ × Snapshot)),
      StateInv sr c st →
      loopAux stream ar horizon snapb fuel st = .ok (some (ps, sn)) →
      ∃ st' : LoopState, st'.players = ps ∧ StateInv sr c st' := by
  intro fuel
  induction fuel with
  | zero =>
      intro st ps sn hinv hrun
      unfold loopAux at hrun
      by_cases ht : st.time < horizon
      · rw [if_pos ht] at hrun; exact absurd hrun (by simp)
      · rw [if_neg ht] at hrun
        simp only [Except.ok.injEq, Option.some.injEq, Prod.mk.injEq] at hrun
        exact ⟨st, hrun.1, hinv⟩
  | succ fuel ih =>
      intro st ps sn hinv hrun
      unfold loopAux at hrun
      by_cases ht : st.time < horizon
      · rw [if_pos ht] at hrun
        cases hstep : stepBody stream ar snapb st with
        | error e => rw [hstep] at hrun; exact absurd hrun (by simp)
        | ok st'' =>
            rw [hstep] at hrun
            exact ih st'' ps sn
              (stepBody_preserves hsr (hs st.rng) hinv hstep) hrun
      · rw [if_neg ht] at hrun
        simp only [Except.ok.injEq, Option.some.injEq, Prod.mk.injEq] at hrun
        exact ⟨st, hrun.1, hinv⟩

/-- The initial loop state of `main_simulation_loop` satisfies the
invariant, with the number of servers fixed at construction. -/
theorem initial_state_inv (ar sr : ℚ) (c : ℤ) :
    StateInv sr c.toNat
      { time := 0, players := [], snapshots := [], no_of_players := 0
        queue := (SimulationModel.init ar sr c).queue, rng := 0 } := by
  refine ⟨rfl, ?_, ?_, ?_, [], rfl, ?_, ?_⟩
  · simp [SimulationModel.init, Queue.init]
  · intro kv hkv; simp at hkv
  · intro kv hkv; simp at hkv
  · intro e he; simp at he
  · exact List.Pairwise.nil

/-- Number of players simultaneously in service at time `t`. -/
def countInService (ps : List Player) (t : ℚ) : ℕ :=
  (ps.filter (fun p =>
    decide (p.service_start_time ≤ t ∧ t < p.service_end_time))).length

/-- A `PoolChain` attribution bounds the number of players simultaneously
in service by the number of servers: on one server the service windows
are pairwise disjoint, so the in-service players map injectively into the
server slots. -/
theorem countInService_le_of_poolChain {assigned : List (Player × ℕ)}
    {slots : List ℚ} {ps : List Player}
    (hmap : assigned.map Prod.fst = ps)
    (hchain : PoolChain assigned slots) (t : ℚ) :
    countInService ps t ≤ slots.length := by
  obtain ⟨hbound, hpair⟩ := hchain
  set p : Player → Bool := fun p =>
    decide (p.service_start_time ≤ t ∧ t < p.service_end_time) with hp
  set A : List (Player × ℕ) := assigned.filter (fun e => p e.1) with hA
  have hlenA : countInService ps t = A.length := by
    rw [countInService, ← hmap, ← hp, List.filter_map, List.length_map]
    rfl
  have hApair : A.Pairwise (fun a b => a.2 = b.2 →
      a.1.service_end_time ≤ b.1.service_start_time) :=
    List.Pairwise.sublist (List.filter_sublist assigned) hpair
  have hAmem : ∀ e ∈ A, (e.1.service_start_time ≤ t ∧
      t < e.1.service_end_time) ∧ e.2 < slots.length := by
    intro e he
    have h1 := List.mem_filter.mp he
    exact ⟨by simpa [hp] using h1.2, (hbound e h1.1).1⟩
  have hAne : A.Pairwise (fun a b => a.2 ≠ b.2) := by
    refine hApair.imp_of_mem ?_
    intro a b ha hb hab heq
    obtain ⟨⟨has, hae⟩, _⟩ := hAmem a ha
    obtain ⟨⟨hbs, hbe⟩, _⟩ := hAmem b hb
    have := hab heq
    linarith
  have hnodup : (A.map Prod.snd).Nodup :=
    List.Pairwise.map Prod.snd (fun a b h => h) hAne
  have hsubset : (A.map Prod.snd).toFinset ⊆ Finset.range slots.length := by
    intro x hx
    rw [List.mem_toFinset, List.mem_map] at hx
    obtain ⟨e, he, hex⟩ := hx
    rw [Finset.mem_range, ← hex]
    exact (hAmem e he).2
  have hcard : (A.map Prod.snd).toFinset.card = A.length := by
    rw [List.toFinset_card_of_nodup hnodup, List.length_map]
  calc countInService ps t = A.length := hlenA
    _ = (A.map Prod.snd).toFinset.card := hcard.symm
    _ ≤ (Finset.range slots.length).card := Finset.card_le_card hsubset
    _ = slots.length := Finset.card_range _

/-! ## Claims -/

/-- C9: `clean_up_queue` leaves `next_available_times` unchanged: the
sequence after the call equals the sequence before it, its length is
unchanged, and every entry is unchanged. -/
theorem claim_C9 (q : Queue) (t : ℚ) :
    (q.clean_up_queue t).next_available_times = q.next_available_times ∧
    (q.clean_up_queue t).next_available_times.length =
      q.next_available_times.length ∧
    ∀ i : ℕ, (q.clean_up_queue t).next_available_times.getD i 0 =
      q.next_available_times.getD i 0 :=
  ⟨rfl, rfl, fun _ => rfl⟩

/-- C4: `clean_up_queue` keeps exactly the active players whose service
end time exceeds the given time (removing exactly those with
`service_end_time ≤ time`), and is idempotent: after cleaning at `t1`, a
second cleanup at any `t2 ≤ t1` changes nothing, so the active list
never shrinks further on the second call. -/
theorem claim_C4 :
    (∀ (q : Queue) (t : ℚ) (p : Player),
      p ∈ (q.clean_up_queue t).queue ↔
        p ∈ q.queue ∧ t < p.service_end_time) ∧
    (∀ (q : Queue) (t1 t2 : ℚ), t2 ≤ t1 →
      (q.clean_up_queue t1).clean_up_queue t2 = q.clean_up_queue t1 ∧
      ((q.clean_up_queue t1).clean_up_queue t2).queue.length =
        (q.clean_up_queue t1).queue.length) := by
  constructor
  · intro q t p
    simp [Queue.clean_up_queue, List.mem_filter]
  · intro q t1 t2 ht
    have hfix : ((q.queue.filter
        (fun p => decide (t1 < p.service_end_time))).filter
        (fun p => decide (t2 < p.service_end_time))) =
        q.queue.filter (fun p => decide (t1 < p.service_end_time)) := by
      rw [List.filter_eq_self]
      intro p hp
      have h1 := (List.mem_filter.mp hp).2
      have h2 : t1 < p.service_end_time := by simpa using h1
      simpa using lt_of_le_of_lt ht h2
    constructor
    · obtain ⟨sr, slots, actives⟩ := q
      simp only [Queue.clean_up_queue] at hfix ⊢
      rw [hfix]
    · obtain ⟨sr, slots, actives⟩ := q
      simp only [Queue.clean_up_queue] at hfix ⊢
      rw [hfix]

/-- C4 witness: cleaning the doctest queue (service ends 10, 12, 14) at
time 11 and then again at time 8 removes nothing on the second call. -/
theorem claim_C4_witness :
    (({ service_rate := 3
        next_available_times := List.replicate 7 0
        queue := [{ arrival_time := 4, service_time := 0
                    service_start_time := 0, service_end_time := 10, cost := 0 },
                  { arrival_time := 8, service_time := 0
                    service_start_time := 0, service_end_time := 12, cost := 0 },
                  { arrival_time := 10, service_time := 0
                    service_start_time := 0, service_end_time := 14
                    cost := 0 }] } : Queue).clean_up_queue 11).clean_up_queue 8 =
      ({ service_rate := 3
         next_available_times := List.replicate 7 0
         queue := [{ arrival_time := 4, service_time := 0
                     service_start_time := 0, service_end_time := 10, cost := 0 },
                   { arrival_time := 8, service_time := 0
                     service_start_time := 0, service_end_time := 12, cost := 0 },
                   { arrival_time := 10, service_time := 0
                     service_start_time := 0, service_end_time := 14
                     cost := 0 }] } : Queue).clean_up_queue 11 :=
  (claim_C4.2 _ 11 8 (by norm_num)).1

/-- C7: with a non-positive horizon the loop body never executes: the run
returns an empty players mapping and an empty snapshots mapping, raising
no error, for any positive rates and any server count. -/
theorem claim_C7 (ar sr : ℚ) (_har : 0 < ar) (_hsr : 0 < sr) (c : ℤ)
    (horizon : ℚ) (hh : horizon ≤ 0) (snapb : Bool) (stream : ℕ → ℚ)
    (fuel : ℕ) :
    (SimulationModel.init ar sr c).main_simulation_loop horizon snapb
      stream fuel = .ok (some ([], [])) := by
  have hlt : ¬ ((0:ℚ) < horizon) := not_lt.mpr hh
  cases fuel with
  | zero =>
      simp [SimulationModel.main_simulation_loop, loopAux, hlt]
  | succ f =>
      simp [SimulationModel.main_simulation_loop, loopAux, hlt]

/-- C7 witness: the doctest configuration (rates 10 and 2, six servers)
with horizon -20 returns empty players and snapshots. -/
theorem claim_C7_witness :
    (SimulationModel.init 10 2 6).main_simulation_loop (-20) true
      (fun _ => 1) 5 = .ok (some ([], [])) :=
  claim_C7 10 2 (by norm_num) (by norm_num) 6 (-20) (by norm_num) true
    (fun _ => 1) 5

/-- C3: with a non-positive server count and a positive horizon, the run
fails on the first assignment with the empty-server-pool error, which
propagates to the caller unswallowed, whatever fuel, snapshot flag and
sample stream are used. -/
theorem claim_C3 (ar sr : ℚ) (c : ℤ) (hc : c ≤ 0) (horizon : ℚ)
    (hh : 0 < horizon) (snapb : Bool) (stream : ℕ → ℚ) (fuel : ℕ) :
    (SimulationModel.init ar sr c).main_simulation_loop horizon snapb
      stream (fuel + 1) = .error .emptyServerPool := by
  have hslots : (Queue.init sr c).next_available_times = [] := by
    simp [Queue.init, Int.toNat_of_nonpos hc]
  have hstep : stepBody stream ar snapb
      { time := 0, players := [], snapshots := [], no_of_players := 0
        queue := Queue.init sr c, rng := 0 } = .error .emptyServerPool := by
    unfold stepBody Player.enter_queue
    rw [hslots]
    simp [pyMin]
  unfold SimulationModel.main_simulation_loop SimulationModel.init
  unfold loopAux
  rw [if_pos (by simpa using hh)]
  simp only []
  rw [hstep]

/-- C3 witness: the doctest configuration `SimulationModel(6, 7, -2)` run
for 20 time units raises the empty-pool error on the first arrival. -/
theorem claim_C3_witness :
    (SimulationModel.init 6 7 (-2)).main_simulation_loop 20 true
      (fun _ => 1) 4 = .error .emptyServerPool :=
  claim_C3 6 7 (-2) (by norm_num) 20 (by norm_num) true (fun _ => 1) 3

/-- C5: the snapshot average cost is the arithmetic mean of `cost` over
the whole players mapping (all entities created so far), independent of
the queue state, so already-purged entities still count; over costs
1, 3, 5 it is exactly 3; and over an empty mapping the construction
fails with the ZeroDivision-class error instead of a sentinel. -/
theorem claim_C5 :
    (∀ (players : List (ℕ × Player)) (q q' : Queue), players ≠ [] →
      ∃ s s', Snapshot.make players q = .ok s ∧
        Snapshot.make players q' = .ok s' ∧
        s.average_cost =
          (players.map (fun kv => kv.2.cost)).sum / players.length ∧
        s'.average_cost = s.average_cost) ∧
    (∀ q : Queue,
      (Snapshot.make
        [(1, { arrival_time := 0, service_time := 0, service_start_time := 0
               service_end_time := 0, cost := 1 }),
         (2, { arrival_time := 0, service_time := 0, service_start_time := 0
               service_end_time := 0, cost := 3 }),
         (3, { arrival_time := 0, service_time := 0, service_start_time := 0
               service_end_time := 0, cost := 5 })] q).map
        Snapshot.average_cost = .ok 3) ∧
    (∀ q : Queue, Snapshot.make [] q = .error .snapshotZeroDivision) := by
  refine ⟨?_, ?_, ?_⟩
  · intro players q q' hne
    have hlen : ¬ players.length = 0 := by
      intro h
      exact hne (List.length_eq_zero.mp h)
    refine ⟨{ queue_length := q.queue.length
              average_cost :=
                (players.map (fun kv => kv.2.cost)).sum / players.length },
            { queue_length := q'.queue.length
              average_cost :=
                (players.map (fun kv => kv.2.cost)).sum / players.length },
            ?_, ?_, rfl, rfl⟩
    · unfold Snapshot.make
      rw [if_neg hlen]
    · unfold Snapshot.make
      rw [if_neg hlen]
  · intro q
    unfold Snapshot.make
    norm_num [Except.map]
  · intro q
    unfold Snapshot.make
    norm_num

/-- C5 witness: instantiating the mean property over one entity of cost 7
with two different queue states (an empty pool and one with an active
player) yields the same successful average. -/
theorem claim_C5_witness :
    ∃ s s',
      Snapshot.make
        [(1, { arrival_time := 10, service_time := 0, service_start_time := 0
               service_end_time := 0, cost := 7 })] (Queue.init 1 1) = .ok s ∧
      Snapshot.make
        [(1, { arrival_time := 10, service_time := 0, service_start_time := 0
               service_end_time := 0, cost := 7 })]
        { service_rate := 1, next_available_times := [0]
          queue := [{ arrival_time := 0, service_time := 0
                      service_start_time := 0, service_end_time := 9
                      cost := 0 }] } = .ok s' ∧
      s.average_cost =
        (([(1, ({ arrival_time := 10, service_time := 0
                  service_start_time := 0, service_end_time := 0
                  cost := 7 } : Player))]).map (fun kv => kv.2.cost)).sum /
          ([(1, ({ arrival_time := 10, service_time := 0
                   service_start_time := 0, service_end_time := 0
                   cost := 7 } : Player))]).length ∧
      s'.average_cost = s.average_cost :=
  claim_C5.1 _ (Queue.init 1 1) _ (List.cons_ne_nil _ _)

/-- The only error `expovariate` can raise is the zero-rate
ZeroDivisionError. -/
theorem expovariate_error {lambd s : ℚ} {e : SimError}
    (h : expovariate lambd s = .error e) : e = .zeroDivision := by
  unfold expovariate at h
  by_cases hl : lambd = 0
  · rw [if_pos hl] at h
    simpa using h.symm
  · rw [if_neg hl] at h
    exact absurd h (by simp)

/-- The loop body never raises the snapshot ZeroDivisionError: the
snapshot is only built after the new player has been inserted, so its
players argument is never empty. -/
theorem stepBody_no_snapshot_error (stream : ℕ → ℚ) (ar : ℚ) (snapb : Bool)
    (st : LoopState) :
    stepBody stream ar snapb st ≠ .error .snapshotZeroDivision := by
  intro h
  unfold stepBody at h
  cases henter : Player.enter_queue st.time st.queue (stream st.rng) with
  | error e =>
      rw [henter] at h
      have he : e = .snapshotZeroDivision := by simpa using h
      rcases enter_queue_error henter with h1 | h1 <;>
        (rw [h1] at he; exact absurd he (by simp))
  | ok pq =>
      obtain ⟨p, q1⟩ := pq
      rw [henter] at h
      cases hexp : expovariate ar (stream (st.rng + 1)) with
      | error e =>
          rw [hexp] at h
          have he : e = .snapshotZeroDivision := by simpa using h
          rw [expovariate_error hexp] at he
          exact absurd he (by simp)
      | ok gap =>
          rw [hexp] at h
          cases snapb with
          | false => exact absurd h (by simp)
          | true =>
              simp only [if_true] at h
              cases hsnap : Snapshot.make
                  (dictInsert (st.no_of_players + 1) p st.players)
                  (q1.clean_up_queue st.time) with
              | error e =>
                  unfold Snapshot.make at hsnap
                  by_cases hl : (dictInsert (st.no_of_players + 1) p
                      st.players).length = 0
                  · exact dictInsert_ne_nil _ _ _ (List.length_eq_zero.mp hl)
                  · rw [if_neg hl] at hsnap
                    exact absurd hsnap (by simp)
              | ok snap =>
                  rw [hsnap] at h
                  exact absurd h (by simp)

/-- The loop as a whole never raises the snapshot ZeroDivisionError. -/
theorem loopAux_no_snapshot_error (stream : ℕ → ℚ) (ar horizon : ℚ)
    (snapb : Bool) :
    ∀ (fuel : ℕ) (st : LoopState),
      loopAux stream ar horizon snapb fuel st ≠ .error .snapshotZeroDivision := by
  intro fuel
  induction fuel with
  | zero =>
      intro st h
      unfold loopAux at h
      by_cases ht : st.time < horizon
      · rw [if_pos ht] at h; exact absurd h (by simp)
      · rw [if_neg ht] at h; exact absurd h (by simp)
  | succ fuel ih =>
      intro st h
      unfold loopAux at h
      by_cases ht : st.time < horizon
      · rw [if_pos ht] at h
        cases hstep : stepBody stream ar snapb st with
        | error e =>
            rw [hstep] at h
            have he : e = .snapshotZeroDivision := by simpa using h
            rw [he] at hstep
            exact stepBody_no_snapshot_error stream ar snapb st hstep
        | ok st' =>
            rw [hstep] at h
            exact ih st' h
      · rw [if_neg ht] at h; exact absurd h (by simp)

/-- C10: with snapshotting enabled, a run never fails with the snapshot
division-by-zero: every snapshot is constructed after the iteration has
inserted its entity into the players mapping, so the mapping is nonempty
at every construction site and the ZeroDivision case of the snapshot is
unreachable from the run loop. -/
theorem claim_C10 (m : SimulationModel) (simulation_time : ℚ)
    (stream : ℕ → ℚ) (fuel : ℕ) :
    m.main_simulation_loop simulation_time true stream fuel ≠
      .error .snapshotZeroDivision := by
  unfold SimulationModel.main_simulation_loop
  exact loopAux_no_snapshot_error stream m.arrival_rate simulation_time true
    fuel _

/-- C10 witness: a concrete snapshotting run does not fail with the
snapshot division-by-zero. -/
theorem claim_C10_witness :
    (SimulationModel.init 6 7 2).main_simulation_loop 20 true
      (fun _ => 1) 3 ≠ .error .snapshotZeroDivision :=
  claim_C10 (SimulationModel.init 6 7 2) 20 (fun _ => 1) 3

/-- C8 counterexample: the claim says sampling fails whenever the rate is
non-positive, but at the concrete non-positive rate -1 (with log-sample 1)
`service_time` silently returns the value -1 instead of failing. -/
theorem claim_C8_counterexample :
    (({ service_rate := -1, next_available_times := [0]
        queue := [] } : Queue).service_rate ≤ 0) ∧
    ({ service_rate := -1, next_available_times := [0]
       queue := [] } : Queue).service_time 1 = .ok (-1) := by
  constructor
  · norm_num
  · unfold Queue.service_time expovariate
    norm_num

/-- C8 (amended): with a positive rate and a non-negative log-sample the
sampled value is non-negative; with rate exactly zero the call fails with
the ZeroDivision error; but a negative rate is not rejected: the call
silently returns a non-positive value. -/
theorem claim_C8 (q : Queue) (s : ℚ) :
    (0 < q.service_rate → 0 ≤ s →
      ∃ v, q.service_time s = .ok v ∧ 0 ≤ v) ∧
    (q.service_rate = 0 → q.service_time s = .error .zeroDivision) ∧
    (q.service_rate < 0 → 0 ≤ s →
      ∃ v, q.service_time s = .ok v ∧ v ≤ 0) := by
  refine ⟨?_, ?_, ?_⟩
  · intro hr hs
    refine ⟨s / q.service_rate, ?_, div_nonneg hs hr.le⟩
    unfold Queue.service_time expovariate
    rw [if_neg (ne_of_gt hr)]
  · intro hr
    unfold Queue.service_time expovariate
    rw [if_pos hr]
  · intro hr hs
    refine ⟨s / q.service_rate,  ?_,
      div_nonpos_of_nonneg_of_nonpos hs hr.le⟩
    unfold Queue.service_time expovariate
    rw [if_neg (ne_of_lt hr)]

/-- C8 witness: at rate 5 and log-sample 2 the sample succeeds and is
non-negative. -/
theorem claim_C8_witness :
    ∃ v, ({ service_rate := 5, next_available_times := [0]
            queue := [] } : Queue).service_time 2 = .ok v ∧ 0 ≤ v :=
  (claim_C8 { service_rate := 5, next_available_times := [0]
              queue := [] } 2).1 (by norm_num) (by norm_num)

/-- C2: in any completed run with a positive service rate and
non-negative log-samples, every entity of the returned players mapping
satisfies `service_start_time ≥ arrival_time`,
`cost = service_end_time - arrival_time`, and
`cost ≥ service_time ≥ 0`. -/
theorem claim_C2 (ar sr : ℚ) (c : ℤ) (hsr : 0 < sr) (stream : ℕ → ℚ)
    (hs : ∀ n, 0 ≤ stream n) (simulation_time : ℚ) (snap_shot : Bool)
    (fuel : ℕ) (ps : List (ℕ × Player)) (sn : List (ℚ × Snapshot))
    (hrun : (SimulationModel.init ar sr c).main_simulation_loop
      simulation_time snap_shot stream fuel = .ok (some (ps, sn))) :
    ∀ kv ∈ ps, kv.2.arrival_time ≤ kv.2.service_start_time ∧
      kv.2.cost = kv.2.service_end_time - kv.2.arrival_time ∧
      kv.2.service_time ≤ kv.2.cost ∧ 0 ≤ kv.2.service_time := by
  unfold SimulationModel.main_simulation_loop at hrun
  obtain ⟨st', hps, hinv⟩ :=
    loopAux_preserves hsr hs fuel _ ps sn
      (initial_state_inv ar sr c) hrun
  intro kv hkv
  exact hinv.2.2.2.1 kv (hps ▸ hkv)

/-- C2 witness: a completed one-arrival run (unit rates, one server,
horizon one half, constant unit samples) yields a players mapping whose
single entity satisfies the invariant. -/
theorem claim_C2_witness :
    (((1:ℕ), ({ arrival_time := 0, service_time := 1
                service_start_time := 0, service_end_time := 1
                cost := 1 } : Player))).2.arrival_time ≤
      (((1:ℕ), ({ arrival_time := 0, service_time := 1
                  service_start_time := 0, service_end_time := 1
                  cost := 1 } : Player))).2.service_start_time ∧
    (((1:ℕ), ({ arrival_time := 0, service_time := 1
                service_start_time := 0, service_end_time := 1
                cost := 1 } : Player))).2.cost =
      (((1:ℕ), ({ arrival_time := 0, service_time := 1
                  service_start_time := 0, service_end_time := 1
                  cost := 1 } : Player))).2.service_end_time -
      (((1:ℕ), ({ arrival_time := 0, service_time := 1
                  service_start_time := 0, service_end_time := 1
                  cost := 1 } : Player))).2.arrival_time ∧
    (((1:ℕ), ({ arrival_time := 0, service_time := 1
                service_start_time := 0, service_end_time := 1
                cost := 1 } : Player))).2.service_time ≤
      (((1:ℕ), ({ arrival_time := 0, service_time := 1
                  service_start_time := 0, service_end_time := 1
                  cost := 1 } : Player))).2.cost ∧
    (0:ℚ) ≤ (((1:ℕ), ({ arrival_time := 0, service_time := 1
                        service_start_time := 0, service_end_time := 1
                        cost := 1 } : Player))).2.service_time :=
  claim_C2 1 1 1 (by norm_num) (fun _ => 1) (fun n => by norm_num) (1/2)
    false 1 _ []
    (by norm_num [SimulationModel.main_simulation_loop, SimulationModel.init,
      Queue.init, loopAux, stepBody, Player.enter_queue, Queue.service_time,
      expovariate, pyMin, pyIndex, Queue.clean_up_queue, dictInsert])
    ((1:ℕ), { arrival_time := 0, service_time := 1
              service_start_time := 0, service_end_time := 1, cost := 1 })
    (List.mem_singleton.mpr rfl)

/-- C6: in any completed run with `c ≥ 1` servers, a positive service
rate and non-negative log-samples, at most `c` of the created entities
are simultaneously in service at any time `t` (satisfy
`service_start_time ≤ t < service_end_time`). -/
theorem claim_C6 (ar sr : ℚ) (c : ℤ) (hc : 1 ≤ c) (hsr : 0 < sr)
    (stream : ℕ → ℚ) (hs : ∀ n, 0 ≤ stream n) (simulation_time : ℚ)
    (snap_shot : Bool) (fuel : ℕ) (ps : List (ℕ × Player))
    (sn : List (ℚ × Snapshot))
    (hrun : (SimulationModel.init ar sr c).main_simulation_loop
      simulation_time snap_shot stream fuel = .ok (some (ps, sn))) :
    ∀ t : ℚ, (countInService (ps.map Prod.snd) t : ℤ) ≤ c := by
  unfold SimulationModel.main_simulation_loop at hrun
  obtain ⟨st', hps, hinv⟩ :=
    loopAux_preserves hsr hs fuel _ ps sn
      (initial_state_inv ar sr c) hrun
  obtain ⟨hsrq, hlen, hkeys, hpinv, assigned, hmap, hchain⟩ := hinv
  intro t
  have hcount := countInService_le_of_poolChain
    (hmap.trans (by rw [hps])) hchain t
  rw [hlen] at hcount
  calc (countInService (ps.map Prod.snd) t : ℤ) ≤ (c.toNat : ℤ) := by
        exact_mod_cast hcount
    _ = c := Int.toNat_of_nonneg (by linarith)

/-- C6 witness: the one-arrival run on a single server has at most one
entity in service at the concrete time one half. -/
theorem claim_C6_witness :
    (countInService
      (([((1:ℕ), ({ arrival_time := 0, service_time := 1
                    service_start_time := 0, service_end_time := 1
                    cost := 1 } : Player))]).map Prod.snd) (1/2) : ℤ) ≤ 1 :=
  claim_C6 1 1 1 (by norm_num) (by norm_num) (fun _ => 1)
    (fun n => by norm_num) (1/2) false 1 _ []
    (by norm_num [SimulationModel.main_simulation_loop, SimulationModel.init,
      Queue.init, loopAux, stepBody, Player.enter_queue, Queue.service_time,
      expovariate, pyMin, pyIndex, Queue.clean_up_queue, dictInsert])
    (1/2)

/-- First entity of the doctest scenario (arrival 0, sample 0.14). -/
def scenario_p1 : Player :=
  { arrival_time := 0, service_time := 14/100, service_start_time := 0
    service_end_time := 14/100, cost := 14/100 }

/-- Queue after the first assignment of the scenario. -/
def scenario_q1 : Queue :=
  { service_rate := 1, next_available_times := [14/100, 0]
    queue := [scenario_p1] }

/-- Second entity of the scenario (arrival 0.1, sample 1.88). -/
def scenario_p2 : Player :=
  { arrival_time := 1/10, service_time := 188/100, service_start_time := 1/10
    service_end_time := 198/100, cost := 188/100 }

/-- Queue after the second assignment of the scenario. -/
def scenario_q2 : Queue :=
  { service_rate := 1, next_available_times := [14/100, 198/100]
    queue := [scenario_p1, scenario_p2] }

/-- Third entity of the scenario (arrival 0.12, sample 1.44): it starts
at 0.14 and therefore ends at 0.14 + 1.44 = 1.58 with cost 1.46. -/
def scenario_p3 : Player :=
  { arrival_time := 12/100, service_time := 144/100
    service_start_time := 14/100, service_end_time := 158/100
    cost := 146/100 }

/-- Queue after the third assignment of the scenario. -/
def scenario_q3 : Queue :=
  { service_rate := 1, next_available_times := [158/100, 198/100]
    queue := [scenario_p1, scenario_p2, scenario_p3] }

/-- Fourth entity of the scenario (arrival 2, sample 0.29). -/
def scenario_p4 : Player :=
  { arrival_time := 2, service_time := 29/100, service_start_time := 2
    service_end_time := 229/100, cost := 29/100 }

/-- Queue after the fourth assignment of the scenario. -/
def scenario_q4 : Queue :=
  { service_rate := 1, next_available_times := [229/100, 198/100]
    queue := [scenario_p1, scenario_p2, scenario_p3, scenario_p4] }

/-- A queue built with two servers starts with two zero slots. -/
theorem queue_init_two :
    Queue.init 1 2 = { service_rate := 1, next_available_times := [0, 0]
                       queue := [] } := rfl

/-- C1 counterexample: running the claimed variate sequence exactly, the
third entity (arrival 0.12, both servers busy, earliest free at 0.14)
ends service at 1.58 with cost 1.46 — strictly below the 1.59 and 1.47
the claim asserts, which are unreachable in exact arithmetic because
0.14 + 1.44 = 1.58. -/
theorem claim_C1_counterexample :
    Player.enter_queue 0 (Queue.init 1 2) (14/100) =
      .ok (scenario_p1, scenario_q1) ∧
    Player.enter_queue (1/10) scenario_q1 (188/100) =
      .ok (scenario_p2, scenario_q2) ∧
    Player.enter_queue (12/100) scenario_q2 (144/100) =
      .ok (scenario_p3, scenario_q3) ∧
    scenario_p3.service_end_time = 158/100 ∧ (158:ℚ)/100 < 159/100 ∧
    scenario_p3.cost = 146/100 ∧ (146:ℚ)/100 < 147/100 := by
  refine ⟨?_, ?_, ?_, rfl, by norm_num, rfl, by norm_num⟩ <;>
    norm_num [Player.enter_queue, Queue.service_time, expovariate, pyMin,
      pyIndex, queue_init_two, scenario_p1, scenario_q1, scenario_p2,
      scenario_q2, scenario_p3, scenario_q3, max_def, min_def]

/-- C1 (amended): every assignment picks the server whose
`next_available_times` entry is minimal, breaking ties at the lowest
index, and sets `service_time` to the sampled value,
`service_start_time` to the maximum of arrival and that entry,
`service_end_time` to their sum, `cost` to the sojourn, overwrites the
chosen slot with the end time and appends the entity to the active list;
under the exact variate sequence 0.14, 1.88, 1.44, 0.29 with unit
service rate and two servers, the four arrivals at 0, 0.1, 0.12 and 2
get ends 0.14, 1.98, 1.58, 2.29 and costs 0.14, 1.88, 1.46, 0.29 (the
third entity differs from the claimed 1.59 and 1.47). -/
theorem claim_C1 :
    (∀ (a s : ℚ) (q : Queue), q.next_available_times ≠ [] →
      q.service_rate ≠ 0 →
      ∃ m p q',
        pyMin q.next_available_times = some m ∧
        m ∈ q.next_available_times ∧
        (∀ x ∈ q.next_available_times, m ≤ x) ∧
        pyIndex q.next_available_times m < q.next_available_times.length ∧
        q.next_available_times.getD (pyIndex q.next_available_times m) 0 = m ∧
        (∀ i < pyIndex q.next_available_times m,
          q.next_available_times.getD i 0 ≠ m) ∧
        Player.enter_queue a q s = .ok (p, q') ∧
        p.arrival_time = a ∧
        p.service_time = s / q.service_rate ∧
        p.service_start_time = max a m ∧
        p.service_end_time = p.service_start_time + p.service_time ∧
        p.cost = p.service_end_time - a ∧
        q'.next_available_times =
          q.next_available_times.set (pyIndex q.next_available_times m)
            p.service_end_time ∧
        q'.queue = q.queue ++ [p] ∧
        q'.service_rate = q.service_rate) ∧
    (Player.enter_queue 0 (Queue.init 1 2) (14/100) =
      .ok (scenario_p1, scenario_q1) ∧
    Player.enter_queue (1/10) scenario_q1 (188/100) =
      .ok (scenario_p2, scenario_q2) ∧
    Player.enter_queue (12/100) scenario_q2 (144/100) =
      .ok (scenario_p3, scenario_q3) ∧
    Player.enter_queue 2 scenario_q3 (29/100) =
      .ok (scenario_p4, scenario_q4)) := by
  constructor
  · intro a s q hne hr
    cases hmin : pyMin q.next_available_times with
    | none => exact absurd (pyMin_eq_none.mp hmin) hne
    | some m =>
        have hmem := pyMin_mem hmin
        refine ⟨m,
          { arrival_time := a, service_time := s / q.service_rate
            service_start_time := max a m
            service_end_time := max a m + s / q.service_rate
            cost := max a m + s / q.service_rate - a },
          { q with
              next_available_times :=
                q.next_available_times.set (pyIndex q.next_available_times m)
                  (max a m + s / q.service_rate)
              queue := q.queue ++
                [{ arrival_time := a, service_time := s / q.service_rate
                   service_start_time := max a m
                   service_end_time := max a m + s / q.service_rate
                   cost := max a m + s / q.service_rate - a }] },
          rfl, hmem, pyMin_le hmin, pyIndex_lt_length hmem,
          pyIndex_getD hmem, (fun i hi => pyIndex_first i hi), ?_,
          rfl, rfl, rfl, rfl, rfl, rfl, rfl, rfl⟩
        unfold Player.enter_queue Queue.service_time expovariate
        rw [hmin, if_neg hr]
  · refine ⟨?_, ?_, ?_, ?_⟩ <;>
      norm_num [Player.enter_queue, Queue.service_time, expovariate, pyMin,
        pyIndex, queue_init_two, scenario_p1, scenario_q1, scenario_p2,
        scenario_q2, scenario_p3, scenario_q3, scenario_p4, scenario_q4,
        max_def, min_def]

/-- C1 witness: the amended assignment property instantiated on a
single-server pool with unit rate, arrival 0 and sample 1. -/
theorem claim_C1_witness :
    ∃ m p q',
      pyMin ({ service_rate := 1, next_available_times := [0]
               queue := [] } : Queue).next_available_times = some m ∧
      m ∈ ({ service_rate := 1, next_available_times := [0]
             queue := [] } : Queue).next_available_times ∧
      (∀ x ∈ ({ service_rate := 1, next_available_times := [0]
                queue := [] } : Queue).next_available_times, m ≤ x) ∧
      pyIndex ({ service_rate := 1, next_available_times := [0]
                 queue := [] } : Queue).next_available_times m <
        ({ service_rate := 1, next_available_times := [0]
           queue := [] } : Queue).next_available_times.length ∧
      ({ service_rate := 1, next_available_times := [0]
         queue := [] } : Queue).next_available_times.getD
        (pyIndex ({ service_rate := 1, next_available_times := [0]
                    queue := [] } : Queue).next_available_times m) 0 = m ∧
      (∀ i < pyIndex ({ service_rate := 1, next_available_times := [0]
                        queue := [] } : Queue).next_available_times m,
        ({ service_rate := 1, next_available_times := [0]
           queue := [] } : Queue).next_available_times.getD i 0 ≠ m) ∧
      Player.enter_queue 0 { service_rate := 1, next_available_times := [0]
                             queue := [] } 1 = .ok (p, q') ∧
      p.arrival_time = 0 ∧
      p.service_time = 1 / ({ service_rate := 1, next_available_times := [0]
                              queue := [] } : Queue).service_rate ∧
      p.service_start_time = max 0 m ∧
      p.service_end_time = p.service_start_time + p.service_time ∧
      p.cost = p.service_end_time - 0 ∧
      q'.next_available_times =
        ({ service_rate := 1, next_available_times := [0]
           queue := [] } : Queue).next_available_times.set
          (pyIndex ({ service_rate := 1, next_available_times := [0]
                      queue := [] } : Queue).next_available_times m)
          p.service_end_time ∧
      q'.queue = ({ service_rate := 1, next_available_times := [0]
                    queue := [] } : Queue).queue ++ [p] ∧
      q'.service_rate = ({ service_rate := 1, next_available_times := [0]
                           queue := [] } : Queue).service_rate :=
  claim_C1.1 0 1 { service_rate := 1, next_available_times := [0]
                   queue := [] }
    (List.cons_ne_nil _ _) (by norm_num)
